import Mathlib

/-!
Verification of the filter-and-aggregation engine of the HR attrition
dashboard (`src/app.py`) against its specification.

The dataset is a list of employee records (`Record`, one per CSV row, schema
of spec §6).  The sidebar widgets hold the current selections (`FilterState`:
`departments`, `job_roles`, `genders`, `age_range`, `attrition_filter`,
app.py lines 19-44).  `filtered_df` (app.py lines 47-53) applies the five
predicates as a boolean-mask conjunction; pandas `Series.between` is
inclusive on both ends.  The KPI block (lines 60-73) and the per-category
rate tables (lines 95-100, 114-118, 158-163) and pivot (lines 144-146) are
embedded below next to their claims.  Rates are modelled in `ℚ`, which has
no NaN and no failing division: `attrition_rate` is total by construction.
-/

/-- One employee row of the dataset, schema of spec §6. -/
structure Record where
  employeeNumber : Nat
  department : String
  jobRole : String
  gender : String
  age : Int
  attrition : String
  maritalStatus : String
  jobLevel : Int
  jobSatisfaction : Int
  jobInvolvement : Int
  monthlyIncome : Int
deriving DecidableEq, Repr

/-- The five sidebar filter selections (app.py lines 19-44): four
multiselect value lists and the inclusive age range of the slider. -/
structure FilterState where
  departments : List String
  jobRoles : List String
  genders : List String
  ageRange : Int × Int
  attritionFilter : List String
deriving DecidableEq, Repr

/-- Row-wise reading of the conjunction of the five boolean masks of
app.py lines 47-53: `isin` on Department, JobRole, Gender and Attrition,
and `between` (inclusive on both bounds) on Age. -/
def recordPasses (fs : FilterState) (r : Record) : Prop :=
  r.department ∈ fs.departments ∧
  r.jobRole ∈ fs.jobRoles ∧
  r.gender ∈ fs.genders ∧
  (fs.ageRange.1 ≤ r.age ∧ r.age ≤ fs.ageRange.2) ∧
  r.attrition ∈ fs.attritionFilter

instance (fs : FilterState) : DecidablePred (recordPasses fs) := fun r => by
  unfold recordPasses
  infer_instance

/-- `filtered_df` (app.py lines 47-53): the rows of the dataset whose mask
is true, in dataset order — boolean-mask selection on a dataframe keeps
the original row order. -/
def filtered_df (df : List Record) (fs : FilterState) : List Record :=
  df.filter (fun r => decide (recordPasses fs r))

/-- `total_emp = len(filtered_df)` (app.py line 61). -/
def total_emp (view : List Record) : Nat :=
  view.length

/-- `attrition_count = filtered_df[filtered_df["Attrition"] == "Yes"].shape[0]`
(app.py line 66). -/
def attrition_count (view : List Record) : Nat :=
  (view.filter (fun r => decide (r.attrition = "Yes"))).length

/-- `attrition_rate = (attrition_count / total_emp * 100) if total_emp else 0`
(app.py line 71), with real-number division modelled in `ℚ`. -/
def attrition_rate (view : List Record) : ℚ :=
  if total_emp view ≠ 0 then
    (attrition_count view : ℚ) / (total_emp view : ℚ) * 100
  else 0

theorem mem_filtered_df (df : List Record) (fs : FilterState) (r : Record) :
    r ∈ filtered_df df fs ↔ r ∈ df ∧ recordPasses fs r := by
  simp [filtered_df, List.mem_filter]

/-- C1: a record is in `filtered_df` iff it is a dataset row satisfying all
five predicates (Department, JobRole and Gender membership, Age in the
closed range, Attrition membership), and `filtered_df` is a subsequence of
the dataset. -/
theorem filtered_df_membership_and_sublist (df : List Record) (fs : FilterState) :
    (∀ r : Record, r ∈ filtered_df df fs ↔
      (r ∈ df ∧ r.department ∈ fs.departments ∧ r.jobRole ∈ fs.jobRoles ∧
        r.gender ∈ fs.genders ∧
        (fs.ageRange.1 ≤ r.age ∧ r.age ≤ fs.ageRange.2) ∧
        r.attrition ∈ fs.attritionFilter)) ∧
    (filtered_df df fs).Sublist df := by
  constructor
  · intro r
    rw [mem_filtered_df]
    unfold recordPasses
    tauto
  · exact List.filter_sublist df

/-- C2: the attrition rate is `attrition_count / total_emp * 100` (in `ℚ`,
where the empty case gives `0 / 0 * 100 = 0`), and on an empty view it is
exactly `0` — a value, not an error, and `ℚ` has no NaN. -/
theorem attrition_rate_eq_and_zero_on_empty (view : List Record) :
    attrition_rate view = (attrition_count view : ℚ) / (total_emp view : ℚ) * 100 ∧
    (total_emp view = 0 → attrition_rate view = 0) := by
  constructor
  · unfold attrition_rate
    by_cases h : total_emp view = 0
    · simp [h]
    · simp [h]
  · intro h
    simp [attrition_rate, h]

/-- Witness for C2 at the empty view: the rate is exactly `0`. -/
theorem attrition_rate_empty_witness : attrition_rate [] = 0 :=
  (attrition_rate_eq_and_zero_on_empty []).2 rfl

/-- C7: filtering is a pure function of `(df, fs)` (it is a Lean function,
so two applications at identical inputs are identical by `rfl`); its output
preserves dataset order (it is a sublist of the input), and re-applying the
same filter to its own output returns it unchanged. -/
theorem filtered_df_order_preserving_and_idempotent (df : List Record) (fs : FilterState) :
    (filtered_df df fs).Sublist df ∧
    filtered_df (filtered_df df fs) fs = filtered_df df fs := by
  refine ⟨List.filter_sublist df, ?_⟩
  unfold filtered_df
  rw [List.filter_filter]
  simp

/-- C9: filtering is monotone in the filter state — if every selection of
`fs₁` is contained in the matching selection of `fs₂` and its age range is
contained in that of `fs₂`, the view under `fs₁` is a subsequence of the
view under `fs₂`. -/
theorem filtered_df_monotone (df : List Record) (fs₁ fs₂ : FilterState)
    (hd : fs₁.departments ⊆ fs₂.departments)
    (hj : fs₁.jobRoles ⊆ fs₂.jobRoles)
    (hg : fs₁.genders ⊆ fs₂.genders)
    (hlo : fs₂.ageRange.1 ≤ fs₁.ageRange.1)
    (hhi : fs₁.ageRange.2 ≤ fs₂.ageRange.2)
    (ha : fs₁.attritionFilter ⊆ fs₂.attritionFilter) :
    (filtered_df df fs₁).Sublist (filtered_df df fs₂) := by
  apply List.monotone_filter_right
  intro r hr
  rw [decide_eq_true_iff] at hr ⊢
  obtain ⟨h1, h2, h3, ⟨h4, h5⟩, h6⟩ := hr
  exact ⟨hd h1, hj h2, hg h3, ⟨le_trans hlo h4, le_trans h5 hhi⟩, ha h6⟩

/-- Concrete record used by witnesses. -/
def recW : Record :=
  { employeeNumber := 1, department := "Sales", jobRole := "Sales Executive",
    gender := "Male", age := 35, attrition := "Yes", maritalStatus := "Single",
    jobLevel := 2, jobSatisfaction := 3, jobInvolvement := 3, monthlyIncome := 5000 }

/-- Narrow filter state over `recW`'s dataset, used by witnesses. -/
def fsNarrowW : FilterState :=
  { departments := ["Sales"], jobRoles := ["Sales Executive"],
    genders := ["Male"], ageRange := (30, 40), attritionFilter := ["Yes"] }

/-- Wide filter state over `recW`'s dataset, used by witnesses. -/
def fsWideW : FilterState :=
  { departments := ["Sales", "Research & Development"],
    jobRoles := ["Sales Executive", "Research Scientist"],
    genders := ["Male", "Female"], ageRange := (18, 60),
    attritionFilter := ["Yes", "No"] }

/-- Witness for C9 at a concrete dataset and a concrete pair of nested
filter states. -/
theorem filtered_df_monotone_witness :
    (filtered_df [recW] fsNarrowW).Sublist (filtered_df [recW] fsWideW) :=
  filtered_df_monotone [recW] fsNarrowW fsWideW
    (by decide) (by decide) (by decide) (by decide) (by decide) (by decide)

/-- C10: the count of leavers never exceeds the view size, and consequently
the attrition rate always lies in `[0, 100]`, the empty view included. -/
theorem attrition_rate_bounds (view : List Record) :
    attrition_count view ≤ total_emp view ∧
    0 ≤ attrition_rate view ∧ attrition_rate view ≤ 100 := by
  have hle : attrition_count view ≤ total_emp view :=
    List.length_filter_le _ view
  refine ⟨hle, ?_, ?_⟩
  · unfold attrition_rate
    by_cases h : total_emp view = 0
    · simp [h]
    · simp only [h, ne_eq, not_false_eq_true, if_true]
      positivity
  · unfold attrition_rate
    by_cases h : total_emp view = 0
    · simp [h]
    · simp only [h, ne_eq, not_false_eq_true, if_true]
      have hpos : (0 : ℚ) < (total_emp view : ℚ) := by
        exact_mod_cast Nat.pos_of_ne_zero h
      have hdiv : (attrition_count view : ℚ) / (total_emp view : ℚ) ≤ 1 := by
        rw [div_le_one hpos]
        exact_mod_cast hle
      calc (attrition_count view : ℚ) / (total_emp view : ℚ) * 100
          ≤ 1 * 100 := by
            apply mul_le_mul_of_nonneg_right hdiv
            norm_num
        _ = 100 := by norm_num

/-- Lexicographic comparison of character lists by code point — the order
Python's `sorted` uses on strings. -/
def lexLe : List Char → List Char → Bool
  | [], _ => true
  | _ :: _, [] => false
  | a :: as, b :: bs =>
    if a.toNat < b.toNat then true
    else if b.toNat < a.toNat then false
    else lexLe as bs

/-- Lexicographic (code-point) order on strings. -/
def strLe (a b : String) : Bool :=
  lexLe a.data b.data

/-- The string order as a relation, for sorting and sortedness statements. -/
def strLeP (a b : String) : Prop :=
  strLe a b = true

instance : DecidableRel strLeP := fun a b => by
  unfold strLeP
  infer_instance

theorem lexLe_total : ∀ as bs : List Char, lexLe as bs = true ∨ lexLe bs as = true := by
  intro as
  induction as with
  | nil => intro bs; left; rfl
  | cons a as ih =>
    intro bs
    cases bs with
    | nil => right; rfl
    | cons b bs =>
      simp only [lexLe]
      rcases Nat.lt_trichotomy a.toNat b.toNat with h | h | h
      · left; rw [if_pos h]
      · have h1 : ¬ a.toNat < b.toNat := by omega
        have h2 : ¬ b.toNat < a.toNat := by omega
        simp only [if_neg h1, if_neg h2]
        exact ih bs
      · right; rw [if_pos h]

theorem lexLe_trans : ∀ as bs cs : List Char,
    lexLe as bs = true → lexLe bs cs = true → lexLe as cs = true := by
  intro as
  induction as with
  | nil => intro bs cs _ _; rfl
  | cons a as ih =>
    intro bs cs h1 h2
    cases bs with
    | nil => simp [lexLe] at h1
    | cons b bs =>
      cases cs with
      | nil => simp [lexLe] at h2
      | cons c cs =>
        simp only [lexLe] at h1 h2 ⊢
        split_ifs at h1 h2 ⊢ <;>
          first
            | rfl
            | exact ih bs cs h1 h2
            | (exfalso; omega)

instance : IsTotal String strLeP :=
  ⟨fun a b => lexLe_total a.data b.data⟩

instance : IsTrans String strLeP :=
  ⟨fun a b c => lexLe_trans a.data b.data c.data⟩

/-- First-occurrence deduplication, accumulating already-seen values. -/
def uniqueAux (seen : List String) : List String → List String
  | [] => []
  | x :: xs => if x ∈ seen then uniqueAux seen xs else x :: uniqueAux (x :: seen) xs

/-- `Series.unique()` of pandas: the distinct values of a column in order
of first occurrence. -/
def uniqueVals (xs : List String) : List String :=
  uniqueAux [] xs

theorem mem_uniqueAux : ∀ (l seen : List String) (a : String),
    a ∈ uniqueAux seen l ↔ a ∈ l ∧ a ∉ seen := by
  intro l
  induction l with
  | nil => intro seen a; simp [uniqueAux]
  | cons x xs ih =>
    intro seen a
    simp only [uniqueAux]
    by_cases hx : x ∈ seen
    · rw [if_pos hx, ih seen a]
      constructor
      · rintro ⟨h1, h2⟩
        exact ⟨List.mem_cons_of_mem x h1, h2⟩
      · rintro ⟨h1, h2⟩
        rcases List.mem_cons.mp h1 with h | h
        · subst h; exact absurd hx h2
        · exact ⟨h, h2⟩
    · rw [if_neg hx]
      simp only [List.mem_cons, ih (x :: seen) a, List.mem_cons]
      constructor
      · rintro (h | ⟨h1, h2⟩)
        · subst h; exact ⟨Or.inl rfl, hx⟩
        · exact ⟨Or.inr h1, fun hs => h2 (Or.inr hs)⟩
      · rintro ⟨h1, h2⟩
        by_cases hax : a = x
        · exact Or.inl hax
        · rcases h1 with h | h
          · exact absurd h hax
          · exact Or.inr ⟨h, fun hc => hc.elim hax h2⟩

theorem nodup_uniqueAux : ∀ (l seen : List String), (uniqueAux seen l).Nodup := by
  intro l
  induction l with
  | nil => intro seen; simp [uniqueAux]
  | cons x xs ih =>
    intro seen
    simp only [uniqueAux]
    by_cases hx : x ∈ seen
    · rw [if_pos hx]; exact ih seen
    · rw [if_neg hx]
      refine List.nodup_cons.mpr ⟨?_, ih (x :: seen)⟩
      intro hmem
      exact ((mem_uniqueAux xs (x :: seen) x).mp hmem).2 (List.mem_cons_self x seen)

theorem mem_uniqueVals (l : List String) (a : String) :
    a ∈ uniqueVals l ↔ a ∈ l := by
  simp [uniqueVals, mem_uniqueAux]

theorem nodup_uniqueVals (l : List String) : (uniqueVals l).Nodup :=
  nodup_uniqueAux l []

/-- Python's `sorted`, a stable ascending sort under the string order. -/
def sortStrings (xs : List String) : List String :=
  List.insertionSort strLeP xs

theorem mem_sortStrings (l : List String) (a : String) :
    a ∈ sortStrings l ↔ a ∈ l :=
  (List.perm_insertionSort strLeP l).mem_iff

theorem nodup_sortStrings (l : List String) (h : l.Nodup) :
    (sortStrings l).Nodup :=
  ((List.perm_insertionSort strLeP l).symm.nodup h)

theorem sorted_sortStrings (l : List String) :
    List.Sorted strLeP (sortStrings l) :=
  List.sorted_insertionSort strLeP l

/-- Department options, `sorted(df["Department"].unique())` (app.py line 20). -/
def departments_options (df : List Record) : List String :=
  sortStrings (uniqueVals (df.map Record.department))

/-- Job Role options,
`sorted(df[df["Department"].isin(departments)]["JobRole"].unique())`
(app.py line 26): the distinct job roles among rows whose department is
currently selected, sorted. -/
def job_roles_options (df : List Record) (departments : List String) : List String :=
  sortStrings
    (uniqueVals
      ((df.filter (fun r => decide (r.department ∈ departments))).map Record.jobRole))

/-- Gender options, `sorted(df["Gender"].unique())` (app.py line 32). -/
def genders_options (df : List Record) : List String :=
  sortStrings (uniqueVals (df.map Record.gender))

/-- Attrition options, `df["Attrition"].unique()` (app.py line 43): unlike
the other three option lists this one is NOT wrapped in `sorted(...)`, so it
keeps pandas' first-occurrence order. -/
def attrition_options (df : List Record) : List String :=
  uniqueVals (df.map Record.attrition)

/-- Dataset whose first row has Attrition `"Yes"` and second row `"No"`. -/
def dfYesFirst : List Record :=
  [{ recW with employeeNumber := 1, attrition := "Yes" },
   { recW with employeeNumber := 2, attrition := "No" }]

/-- C8 counterexample: on a dataset whose first row leaves (`"Yes"`) and
whose second stays (`"No"`), the Attrition option list of app.py line 43 is
`["Yes", "No"]` — first-occurrence order, not lexicographically sorted
(sorted ascending would be `["No", "Yes"]`). -/
theorem attrition_options_not_sorted_counterexample :
    attrition_options dfYesFirst = ["Yes", "No"] ∧
    ¬ List.Sorted strLeP (attrition_options dfYesFirst) := by
  constructor
  · decide
  · decide

/-- C8 amended: the Department, JobRole and Gender option lists are the
distinct column values sorted lexicographically ascending (and without
duplicates, containing exactly the values present); the Attrition option
list contains exactly the distinct Attrition values without duplicates, but
in first-occurrence order, not sorted. -/
theorem options_sorted_except_attrition (df : List Record) :
    List.Sorted strLeP (departments_options df) ∧
    (departments_options df).Nodup ∧
    (∀ a, a ∈ departments_options df ↔ ∃ r ∈ df, r.department = a) ∧
    (∀ ds, List.Sorted strLeP (job_roles_options df ds) ∧
      (job_roles_options df ds).Nodup) ∧
    List.Sorted strLeP (genders_options df) ∧
    (genders_options df).Nodup ∧
    (∀ a, a ∈ genders_options df ↔ ∃ r ∈ df, r.gender = a) ∧
    (attrition_options df).Nodup ∧
    (∀ a, a ∈ attrition_options df ↔ ∃ r ∈ df, r.attrition = a) := by
  refine ⟨sorted_sortStrings _, nodup_sortStrings _ (nodup_uniqueVals _), ?_,
    fun ds => ⟨sorted_sortStrings _, nodup_sortStrings _ (nodup_uniqueVals _)⟩,
    sorted_sortStrings _, nodup_sortStrings _ (nodup_uniqueVals _), ?_,
    nodup_uniqueVals _, ?_⟩
  · intro a
    rw [departments_options, mem_sortStrings, mem_uniqueVals, List.mem_map]
  · intro a
    rw [genders_options, mem_sortStrings, mem_uniqueVals, List.mem_map]
  · intro a
    rw [attrition_options, mem_uniqueVals, List.mem_map]

/-- Modelled from the spec: `FilterState.setDepartments` (spec §4.2).  The
JobRole selection-maintenance policy — drop now-invalid selections, reset
to the full offered set when the intersection with the new offered options
is empty — is runtime widget-state behavior with no code in src/app.py
(lines 25-28 only declare the offered options and the default); it is
embedded here from the spec's words, with the offered option set taken from
the source (`job_roles_options`, app.py line 26). -/
def setDepartments (df : List Record) (fs : FilterState) (ds : List String) :
    FilterState :=
  let offered := job_roles_options df ds
  let kept := fs.jobRoles.filter (fun j => decide (j ∈ offered))
  { fs with departments := ds, jobRoles := if kept = [] then offered else kept }

/-- C3: after a `setDepartments` call (hence after any sequence of them),
the offered JobRole options are exactly the distinct JobRole values among
records whose Department is selected, the JobRole selection is a subset of
the offered options, now-invalid entries are dropped, and when the old
selection's intersection with the offered options is empty the selection
resets to the full offered set. -/
theorem setDepartments_jobrole_invariant (df : List Record) (fs : FilterState)
    (ds : List String) :
    (∀ j, j ∈ job_roles_options df ds ↔ ∃ r ∈ df, r.department ∈ ds ∧ r.jobRole = j) ∧
    (job_roles_options df ds).Nodup ∧
    (setDepartments df fs ds).departments = ds ∧
    (setDepartments df fs ds).jobRoles ⊆ job_roles_options df ds ∧
    (fs.jobRoles.filter (fun j => decide (j ∈ job_roles_options df ds)) = [] →
      (setDepartments df fs ds).jobRoles = job_roles_options df ds) ∧
    (fs.jobRoles.filter (fun j => decide (j ∈ job_roles_options df ds)) ≠ [] →
      (setDepartments df fs ds).jobRoles =
        fs.jobRoles.filter (fun j => decide (j ∈ job_roles_options df ds))) := by
  refine ⟨?_, nodup_sortStrings _ (nodup_uniqueVals _), by simp [setDepartments], ?_, ?_, ?_⟩
  · intro j
    rw [job_roles_options, mem_sortStrings, mem_uniqueVals, List.mem_map]
    constructor
    · rintro ⟨r, hr, h⟩
      rw [List.mem_filter, decide_eq_true_iff] at hr
      exact ⟨r, hr.1, hr.2, h⟩
    · rintro ⟨r, hr, hd, h⟩
      exact ⟨r, List.mem_filter.mpr ⟨hr, decide_eq_true hd⟩, h⟩
  · intro j hj
    simp only [setDepartments] at hj
    by_cases hk : fs.jobRoles.filter (fun j => decide (j ∈ job_roles_options df ds)) = []
    · simpa [hk] using hj
    · rw [if_neg hk] at hj
      exact decide_eq_true_iff.mp (List.mem_filter.mp hj).2
  · intro h
    simp [setDepartments, h]
  · intro h
    simp [setDepartments, h]

/-- Two-department dataset used by the C3 witness (Scenario C of spec §8). -/
def dfTwoDept : List Record :=
  [{ recW with
      employeeNumber := 1
      department := "Sales"
      jobRole := "Sales Executive" },
   { recW with
      employeeNumber := 2
      department := "Research & Development"
      jobRole := "Research Scientist" }]

/-- Filter state whose JobRole selection holds only a non-Sales role, used
by the C3 witness. -/
def fsResearchRole : FilterState :=
  { fsWideW with jobRoles := ["Research Scientist"] }

/-- Witness for C3 at Scenario C: narrowing Departments to `["Sales"]` when
only a non-Sales role was selected resets the JobRole selection to the full
offered set. -/
theorem setDepartments_reset_witness :
    (setDepartments dfTwoDept fsResearchRole ["Sales"]).jobRoles =
      job_roles_options dfTwoDept ["Sales"] :=
  (setDepartments_jobrole_invariant dfTwoDept fsResearchRole ["Sales"]).2.2.2.2.1
    (by decide)

/-- The error raised for a malformed age range (spec §7). -/
inductive InvalidRangeError where
  | invalidRange
deriving DecidableEq, Repr

/-- Modelled from the spec: `FilterState.setAgeRange` (spec §4.2 and
Scenario D).  src/app.py lines 37-39 only declare the slider with hard
bounds `min_value=age_min, max_value=age_max` (the dataset's Age min and
max), so the validation contract has no code in src/; it is embedded from
the spec's words: reject `lo > hi` with `InvalidRangeError` leaving the
state unchanged, otherwise clamp each bound into `[dmin, dmax]` and store
the range. -/
def setAgeRange (dmin dmax : Int) (fs : FilterState) (lo hi : Int) :
    FilterState × Option InvalidRangeError :=
  if lo > hi then (fs, some InvalidRangeError.invalidRange)
  else ({ fs with ageRange := (max dmin (min lo dmax), max dmin (min hi dmax)) }, none)

/-- C6: `setAgeRange` fails with `InvalidRangeError` exactly when `lo > hi`
and then returns the filter state unchanged (atomicity on error); on
success it reports no error, stores each bound clamped into
`[dmin, dmax]` while leaving every other selection untouched, the stored
range lies inside the dataset bounds and stays ordered (for `dmin ≤ dmax`),
and a bound already inside the dataset bounds is stored as given. -/
theorem setAgeRange_spec (dmin dmax : Int) (fs : FilterState) (lo hi : Int) :
    (lo > hi → setAgeRange dmin dmax fs lo hi = (fs, some InvalidRangeError.invalidRange)) ∧
    (lo ≤ hi → (setAgeRange dmin dmax fs lo hi).2 = none ∧
      (setAgeRange dmin dmax fs lo hi).1.ageRange =
        (max dmin (min lo dmax), max dmin (min hi dmax)) ∧
      (setAgeRange dmin dmax fs lo hi).1.departments = fs.departments ∧
      (setAgeRange dmin dmax fs lo hi).1.jobRoles = fs.jobRoles ∧
      (setAgeRange dmin dmax fs lo hi).1.genders = fs.genders ∧
      (setAgeRange dmin dmax fs lo hi).1.attritionFilter = fs.attritionFilter) ∧
    (lo ≤ hi → dmin ≤ dmax →
      dmin ≤ (setAgeRange dmin dmax fs lo hi).1.ageRange.1 ∧
      (setAgeRange dmin dmax fs lo hi).1.ageRange.2 ≤ dmax ∧
      (setAgeRange dmin dmax fs lo hi).1.ageRange.1 ≤
        (setAgeRange dmin dmax fs lo hi).1.ageRange.2) ∧
    (lo ≤ hi → dmin ≤ lo → lo ≤ dmax →
      (setAgeRange dmin dmax fs lo hi).1.ageRange.1 = lo) := by
  refine ⟨?_, ?_, ?_, ?_⟩
  · intro h
    simp [setAgeRange, h]
  · intro h
    have h' : ¬ lo > hi := not_lt.mpr h
    simp [setAgeRange, h']
  · intro h hd
    have h' : ¬ lo > hi := not_lt.mpr h
    simp only [setAgeRange, if_neg h']
    refine ⟨le_max_left _ _, ?_, ?_⟩
    · omega
    · omega
  · intro h hd1 hd2
    have h' : ¬ lo > hi := not_lt.mpr h
    simp only [setAgeRange, if_neg h']
    omega

/-- Witness for C6 at Scenario D: `setAgeRange(200, 10)` fails with
`InvalidRangeError` and the filter state is unchanged. -/
theorem setAgeRange_error_witness :
    setAgeRange 18 60 fsWideW 200 10 = (fsWideW, some InvalidRangeError.invalidRange) :=
  (setAgeRange_spec 18 60 fsWideW 200 10).1 (by decide)

/-- Group keys of a pandas `groupby(field)`: the distinct observed values of
the field, in ascending order (pandas sorts group keys by default). -/
def groupKeys (view : List Record) (key : Record → String) : List String :=
  sortStrings (uniqueVals (view.map key))

/-- Per-group rate `(x == "Yes").mean() * 100` (the lambda of app.py lines
97, 116 and 160) for the group of rows whose `key` field equals `k`: the
number of `"Yes"` rows over the group size, times 100. -/
def groupAttritionRate (view : List Record) (key : Record → String) (k : String) : ℚ :=
  let grp := view.filter (fun r => decide (key r = k))
  ((grp.filter (fun r => decide (r.attrition = "Yes"))).length : ℚ) / (grp.length : ℚ) * 100

/-- `filtered_df.groupby(field)["Attrition"].apply(lambda x: (x == "Yes").mean() * 100)
.reset_index(name="AttritionRate")`: one (group, rate) row per observed
group, in groupby key order. -/
def rateByCategory (view : List Record) (key : Record → String) : List (String × ℚ) :=
  (groupKeys view key).map (fun k => (k, groupAttritionRate view key k))

/-- Row order of `sort_values(by="AttritionRate", ascending=False)`:
descending by the rate component. -/
def rateDescP (a b : String × ℚ) : Prop :=
  b.2 ≤ a.2

instance : DecidableRel rateDescP := fun a b => by
  unfold rateDescP
  infer_instance

instance : IsTotal (String × ℚ) rateDescP :=
  ⟨fun a b => le_total b.2 a.2⟩

instance : IsTrans (String × ℚ) rateDescP :=
  ⟨fun _ _ _ h1 h2 => le_trans h2 h1⟩

/-- `sort_values(by="AttritionRate", ascending=False)` on a rate table. -/
def sortByRateDesc (rows : List (String × ℚ)) : List (String × ℚ) :=
  List.insertionSort rateDescP rows

/-- `dept_attr` (app.py lines 95-100): rate by Department, sorted
descending by rate. -/
def dept_attr (view : List Record) : List (String × ℚ) :=
  sortByRateDesc (rateByCategory view Record.department)

/-- `gender_attr` (app.py lines 114-118): rate by Gender — note there is no
`sort_values` here, rows stay in groupby key order. -/
def gender_attr (view : List Record) : List (String × ℚ) :=
  rateByCategory view Record.gender

/-- `job_attr` (app.py lines 158-163): rate by JobRole, sorted descending
by rate. -/
def job_attr (view : List Record) : List (String × ℚ) :=
  sortByRateDesc (rateByCategory view Record.jobRole)

theorem mem_groupKeys (view : List Record) (key : Record → String) (k : String) :
    k ∈ groupKeys view key ↔ ∃ r ∈ view, key r = k := by
  rw [groupKeys, mem_sortStrings, mem_uniqueVals, List.mem_map]

theorem mem_rateByCategory (view : List Record) (key : Record → String) (k : String) (q : ℚ) :
    (k, q) ∈ rateByCategory view key ↔
      ((∃ r ∈ view, key r = k) ∧ q = groupAttritionRate view key k) := by
  simp only [rateByCategory, List.mem_map, Prod.mk.injEq]
  constructor
  · rintro ⟨k', hk', hk, hq⟩
    subst hk
    exact ⟨(mem_groupKeys view key k').mp hk', hq.symm⟩
  · rintro ⟨hex, rfl⟩
    exact ⟨k, (mem_groupKeys view key k).mpr hex, rfl, rfl⟩

theorem map_fst_rateByCategory (view : List Record) (key : Record → String) :
    (rateByCategory view key).map Prod.fst = groupKeys view key := by
  simp [rateByCategory, List.map_map, Function.comp_def]

theorem nodup_groupKeys (view : List Record) (key : Record → String) :
    (groupKeys view key).Nodup :=
  nodup_sortStrings _ (nodup_uniqueVals _)

theorem perm_sortByRateDesc (rows : List (String × ℚ)) :
    (sortByRateDesc rows).Perm rows :=
  List.perm_insertionSort rateDescP rows

theorem sorted_sortByRateDesc (rows : List (String × ℚ)) :
    List.Sorted rateDescP (sortByRateDesc rows) :=
  List.sorted_insertionSort rateDescP rows

theorem sorted_fst_rateByCategory (view : List Record) (key : Record → String) :
    List.Sorted (fun a b : String × ℚ => strLeP a.1 b.1) (rateByCategory view key) := by
  rw [rateByCategory]
  exact List.pairwise_map.mpr (sorted_sortStrings _)

theorem nodup_fst_sorted_rate (view : List Record) (key : Record → String) :
    ((sortByRateDesc (rateByCategory view key)).map Prod.fst).Nodup := by
  have hperm := (perm_sortByRateDesc (rateByCategory view key)).map Prod.fst
  apply hperm.symm.nodup
  rw [map_fst_rateByCategory]
  exact nodup_groupKeys view key

/-- C4 amended: each rate table has exactly one row per group with at least
one member in the view — a row for `(k, q)` exists iff some record has the
key `k`, with `q` the group's `countYes / count * 100` rate, so zero-member
groups are omitted and no 0/0 row appears; the Department and JobRole
tables are ordered descending by rate; the Gender table is ordered
ascending by group key (pandas `groupby` key order), not in the view's
insertion order. -/
theorem rate_tables_spec (view : List Record) :
    (∀ k q, (k, q) ∈ dept_attr view ↔
      ((∃ r ∈ view, r.department = k) ∧ q = groupAttritionRate view Record.department k)) ∧
    ((dept_attr view).map Prod.fst).Nodup ∧
    List.Sorted rateDescP (dept_attr view) ∧
    (∀ k q, (k, q) ∈ job_attr view ↔
      ((∃ r ∈ view, r.jobRole = k) ∧ q = groupAttritionRate view Record.jobRole k)) ∧
    ((job_attr view).map Prod.fst).Nodup ∧
    List.Sorted rateDescP (job_attr view) ∧
    (∀ k q, (k, q) ∈ gender_attr view ↔
      ((∃ r ∈ view, r.gender = k) ∧ q = groupAttritionRate view Record.gender k)) ∧
    ((gender_attr view).map Prod.fst).Nodup ∧
    List.Sorted (fun a b : String × ℚ => strLeP a.1 b.1) (gender_attr view) := by
  refine ⟨?_, nodup_fst_sorted_rate view Record.department, sorted_sortByRateDesc _,
    ?_, nodup_fst_sorted_rate view Record.jobRole, sorted_sortByRateDesc _,
    ?_, ?_, sorted_fst_rateByCategory view Record.gender⟩
  · intro k q
    exact (List.Perm.mem_iff (perm_sortByRateDesc _)).trans
      (mem_rateByCategory view Record.department k q)
  · intro k q
    exact (List.Perm.mem_iff (perm_sortByRateDesc _)).trans
      (mem_rateByCategory view Record.jobRole k q)
  · intro k q
    exact mem_rateByCategory view Record.gender k q
  · rw [gender_attr, map_fst_rateByCategory]
    exact nodup_groupKeys view Record.gender

/-- Dataset whose rows have genders `"Male"` then `"Female"`, so insertion
order and sorted order of the gender groups differ. -/
def dfGenderOrder : List Record :=
  [recW, { recW with employeeNumber := 2, gender := "Female" }]

/-- C4 counterexample: on a view whose rows carry genders in the order
`["Male", "Female"]`, the Gender table of app.py lines 114-118 lists its
groups as `["Female", "Male"]` — pandas `groupby` sorts the keys — which is
not the natural/insertion order `["Male", "Female"]` of the claim. -/
theorem gender_attr_order_counterexample :
    dfGenderOrder.map Record.gender = ["Male", "Female"] ∧
    uniqueVals (dfGenderOrder.map Record.gender) = ["Male", "Female"] ∧
    (gender_attr dfGenderOrder).map Prod.fst = ["Female", "Male"] ∧
    (gender_attr dfGenderOrder).map Prod.fst ≠ uniqueVals (dfGenderOrder.map Record.gender) := by
  refine ⟨by decide, by decide, ?_, ?_⟩
  · rw [gender_attr, map_fst_rateByCategory]
    decide
  · rw [gender_attr, map_fst_rateByCategory]
    decide

/-- `marital_attr` (app.py lines 144-146):
`filtered_df.pivot_table(index="MaritalStatus", columns="Attrition",
values="EmployeeNumber", aggfunc="count").fillna(0)`.  The result has one
row per MaritalStatus value observed in the view and one column per
Attrition value observed in the view (both sorted, as pandas sorts pivot
index and columns); each cell counts the rows realizing the combination,
`fillna(0)` turning the missing (never co-occurring) cells into 0. -/
def marital_attr (view : List Record) : List (String × List (String × Nat)) :=
  (sortStrings (uniqueVals (view.map Record.maritalStatus))).map (fun m =>
    (m, (sortStrings (uniqueVals (view.map Record.attrition))).map (fun a =>
      (a, (view.filter (fun r => decide (r.maritalStatus = m ∧ r.attrition = a))).length))))

/-- C5: in the pivot, every cell's value is the number of view rows with
that (MaritalStatus, Attrition) combination — in particular `0`, not an
absent or undefined cell, when the combination never co-occurs; row and
column labels are free of duplicates; and for every MaritalStatus value and
every Attrition value each observed in the view, the corresponding cell
exists. -/
theorem marital_attr_pivot_spec (view : List Record) :
    (∀ row ∈ marital_attr view, ∀ cell ∈ row.2,
      cell.2 = (view.filter (fun r =>
        decide (r.maritalStatus = row.1 ∧ r.attrition = cell.1))).length) ∧
    ((marital_attr view).map Prod.fst).Nodup ∧
    (∀ row ∈ marital_attr view, (row.2.map Prod.fst).Nodup) ∧
    (∀ m a, (∃ r ∈ view, r.maritalStatus = m) → (∃ r ∈ view, r.attrition = a) →
      ∃ row ∈ marital_attr view, row.1 = m ∧ ∃ cell ∈ row.2, cell.1 = a) := by
  refine ⟨?_, ?_, ?_, ?_⟩
  · intro row hrow cell hcell
    simp only [marital_attr, List.mem_map] at hrow
    obtain ⟨m, hm, rfl⟩ := hrow
    simp only [List.mem_map] at hcell
    obtain ⟨a, ha, rfl⟩ := hcell
    rfl
  · have h : (marital_attr view).map Prod.fst =
        sortStrings (uniqueVals (view.map Record.maritalStatus)) := by
      simp [marital_attr, List.map_map, Function.comp_def]
    rw [h]
    exact nodup_sortStrings _ (nodup_uniqueVals _)
  · intro row hrow
    simp only [marital_attr, List.mem_map] at hrow
    obtain ⟨m, hm, rfl⟩ := hrow
    have h : ((sortStrings (uniqueVals (view.map Record.attrition))).map (fun a =>
        (a, (view.filter (fun r =>
          decide (r.maritalStatus = m ∧ r.attrition = a))).length))).map Prod.fst =
        sortStrings (uniqueVals (view.map Record.attrition)) := by
      simp [List.map_map, Function.comp_def]
    rw [h]
    exact nodup_sortStrings _ (nodup_uniqueVals _)
  · rintro m a ⟨rm, hrm, hm⟩ ⟨ra, hra, ha⟩
    refine ⟨(m, (sortStrings (uniqueVals (view.map Record.attrition))).map (fun a =>
      (a, (view.filter (fun r =>
        decide (r.maritalStatus = m ∧ r.attrition = a))).length))), ?_, rfl, ?_⟩
    · simp only [marital_attr, List.mem_map]
      refine ⟨m, ?_, rfl⟩
      rw [mem_sortStrings, mem_uniqueVals, List.mem_map]
      exact ⟨rm, hrm, hm⟩
    · refine ⟨(a, (view.filter (fun r =>
        decide (r.maritalStatus = m ∧ r.attrition = a))).length), ?_, rfl⟩
      simp only [List.mem_map]
      refine ⟨a, ?_, rfl⟩
      rw [mem_sortStrings, mem_uniqueVals, List.mem_map]
      exact ⟨ra, hra, ha⟩

/-- Dataset for the C5 witness: the combinations (Single, Yes) and
(Married, No) occur, so (Single, No) is a never-co-occurring cell. -/
def dfPivotW : List Record :=
  [recW,
   { recW with
      employeeNumber := 2
      attrition := "No"
      maritalStatus := "Married" }]

/-- Witness for C5: `"Single"` and `"No"` are each observed in `dfPivotW`
but never together, and the pivot still has a (Single, No) cell. -/
theorem marital_attr_pivot_witness :
    ∃ row ∈ marital_attr dfPivotW, row.1 = "Single" ∧
      ∃ cell ∈ row.2, cell.1 = "No" :=
  (marital_attr_pivot_spec dfPivotW).2.2.2 "Single" "No"
    ⟨recW, by decide, rfl⟩
    ⟨{ recW with
        employeeNumber := 2
        attrition := "No"
        maritalStatus := "Married" }, by decide, rfl⟩
